import Mathlib

/-!
Verification of the BLE scan aggregation core (`internal/ble` of buckleypaul/blescan).

The Go source is shallowly embedded as follows.

* `time.Time` / `time.Duration` are modelled as `Int` nanoseconds (Go stores both
  as 64-bit nanosecond counts; no arithmetic here comes near the 64-bit range).
* `int16` RSSI values and byte values are modelled as `Int` / `Nat`; overflow is
  irrelevant at the value ranges involved (RSSI is a small signed number, bytes
  are `< 256`, which the theorems carry as explicit hypotheses where it matters).
* `float64` appears in exactly one place (`calculateRSSIAverage`, a single
  division of an integer sum by a length); it is modelled as `ℚ`, the exact value
  of the quotient the Go code computes.
* Go slices/maps are modelled as `List`s / association lists; `map[string][]byte`
  becomes `List (String × List Nat)` with last-writer-wins key update.
* Go's randomized map-iteration order (used only to rebuild the de-duplicated
  `ADTypes` slice) is modelled by the deterministic `List.dedup`; the claims about
  `ADTypes` are set-level (membership / no-duplicates), on which the iteration
  order has no bearing.
* Mutable aliasing (for the snapshot-isolation claim) is modelled separately, in
  namespace `Heap`, by an explicit store of cells indexed by `Ref := Nat`;
  see below.
-/

namespace Blescan

/-- Embedding of `Advertisement` (src/internal/ble/advertisement.go).
`Timestamp` is `Int` nanoseconds; `*int8` / `*uint8` / `*uint16` become
`Option`; `map[string][]byte` becomes an association list. -/
structure Advertisement where
  timestamp : Int
  rssi : Int
  rawData : List Nat
  manufacturerData : List Nat
  serviceUUIDs : List String
  serviceData : List (String × List Nat)
  localName : String
  txPowerLevel : Option Int
  connectable : Bool
  flags : Option Nat
  appearance : Option Nat
  adTypes : List Nat
deriving DecidableEq, Repr

/-- Embedding of `Device` (src/internal/ble/device.go), the per-endpoint
aggregate.  `RSSIAverage` (a `float64` in Go, computed by one exact-input
division) is carried as `ℚ`. -/
structure Device where
  address : String
  name : String
  rssiHistory : List Int
  rssiCurrent : Int
  rssiAverage : ℚ
  advertisements : List Advertisement
  firstSeen : Int
  lastSeen : Int
  advInterval : Int
  advCount : Nat
  manufacturerID : Option Nat
  manufacturerData : List Nat
  serviceUUIDs : List String
  serviceData : List (String × List Nat)
  txPowerLevel : Option Int
  connectable : Bool
  flags : Option Nat
  appearance : Option Nat
  adTypes : List Nat
deriving DecidableEq, Repr

/-- `maxRSSIHistory` constant (device.go line 36). -/
def maxRSSIHistory : Nat := 20

/-- `maxAdvertisements` constant (device.go line 37). -/
def maxAdvertisements : Nat := 100

/-- `NewDevice` (device.go lines 41-51).  Go calls `time.Now()`; the clock
reading is the explicit parameter `now`.  Nil slices and empty maps are both
the empty list. -/
def NewDevice (address : String) (now : Int) : Device where
  address := address
  name := ""
  rssiHistory := []
  rssiCurrent := 0
  rssiAverage := 0
  advertisements := []
  firstSeen := now
  lastSeen := now
  advInterval := 0
  advCount := 0
  manufacturerID := none
  manufacturerData := []
  serviceUUIDs := []
  serviceData := []
  txPowerLevel := none
  connectable := false
  flags := none
  appearance := none
  adTypes := []

/-- `calculateRSSIAverage` (device.go lines 136-145): `0` on an empty history,
otherwise the sum divided by the length. -/
def calculateRSSIAverage (hist : List Int) : ℚ :=
  if hist = [] then 0 else (hist.sum : ℚ) / (hist.length : ℚ)

/-- The company-id decode in `Update` (device.go line 76):
`uint16(b0) | uint16(b1)<<8` on the first two payload bytes. -/
def decodeCompanyID (md : List Nat) : Nat :=
  (md.getD 0 0) ||| ((md.getD 1 0) <<< 8)

/-- One step of the `for k, v := range adv.ServiceData` merge loop
(device.go lines 87-89): `d.ServiceData[k] = v`, i.e. replace the value when
the key is present, append the binding otherwise. -/
def setServiceKey (m : List (String × List Nat)) (k : String) (v : List Nat) :
    List (String × List Nat) :=
  if m.any (fun p => p.1 = k) then
    m.map (fun p => if p.1 = k then (k, v) else p)
  else m ++ [(k, v)]

/-- The whole service-data merge loop (device.go lines 87-89). -/
def mergeServiceData (dm em : List (String × List Nat)) : List (String × List Nat) :=
  em.foldl (fun acc p => setServiceKey acc p.1 p.2) dm

/-- The AD-type merge (device.go lines 110-124): when the event carries type
codes, the device's slice is rebuilt from the set union of old and new codes.
Go materialises the union as a `map[uint8]bool` and re-emits it in randomized
map order; `List.dedup` realises the same set deterministically. -/
def mergeADTypes (old new : List Nat) : List Nat :=
  if new = [] then old else (old ++ new).dedup

/-- Consecutive timestamp deltas, `advs[i].Timestamp.Sub(advs[i-1].Timestamp)`
for `i = 1, ...` (device.go lines 156-157). -/
def deltaList : List Int → List Int
  | a :: b :: rest => (b - a) :: deltaList (b :: rest)
  | _ => []

/-- The plausibility filter on one delta (device.go line 161):
`interval >= 10*time.Millisecond && interval < 10*time.Second`,
in nanoseconds `10000000 ≤ dt ∧ dt < 10000000000`. -/
def validInterval (dt : Int) : Bool :=
  decide (10000000 ≤ dt) && decide (dt < 10000000000)

/-- The scan-and-swap inner loop of `medianDuration` (device.go lines 186-190)
for one position: scanning the remainder with current minimum `x`, swapping
whenever a smaller element is found.  Returns the final minimum together with
the remainder as left behind by the swaps. -/
def selectMin (x : Int) : List Int → Int × List Int
  | [] => (x, [])
  | y :: ys =>
      if y < x then
        let p := selectMin y ys
        (p.1, x :: p.2)
      else
        let p := selectMin x ys
        (p.1, y :: p.2)

theorem selectMin_snd_length (x : Int) (ys : List Int) :
    (selectMin x ys).2.length = ys.length := by
  induction ys generalizing x with
  | nil => simp [selectMin]
  | cons y ys ih =>
      simp only [selectMin]
      split <;> simp [ih]

/-- The selection sort of `medianDuration` (device.go lines 183-191). -/
def selSort : List Int → List Int
  | [] => []
  | x :: xs => (selectMin x xs).1 :: selSort (selectMin x xs).2
termination_by l => l.length
decreasing_by
  simp [selectMin_snd_length]

/-- `medianDuration` (device.go lines 176-197): selection-sort the list, then
take the middle element, or for an even count the (integer-division) average
of the two middle elements. -/
def medianDuration (l : List Int) : Int :=
  if l.length = 0 then 0
  else
    let sorted := selSort l
    if l.length % 2 = 0 then
      (sorted.getD (l.length / 2 - 1) 0 + sorted.getD (l.length / 2) 0) / 2
    else sorted.getD (l.length / 2) 0

/-- `calculateAdvInterval` (device.go lines 147-174), expressed on the list of
retained log timestamps: fewer than 5 entries gives 0; otherwise filter the
consecutive deltas through `validInterval`; fewer than 3 survivors gives 0;
otherwise the median. -/
def calculateAdvIntervalTimes (ts : List Int) : Int :=
  if ts.length < 5 then 0
  else
    let intervals := (deltaList ts).filter validInterval
    if intervals.length < 3 then 0
    else medianDuration intervals

/-- `Device.Update` (device.go lines 54-134), the per-device aggregation step,
translated line by line into a pure state transformer. -/
def Update (d : Device) (adv : Advertisement) : Device :=
  -- lines 58-59
  let lastSeen := adv.timestamp
  let advCount := d.advCount + 1
  -- lines 62-64
  let name := if adv.localName ≠ "" then adv.localName else d.name
  -- lines 67-72
  let hist0 := d.rssiHistory ++ [adv.rssi]
  let rssiHistory := if maxRSSIHistory < hist0.length then hist0.tail else hist0
  let rssiAverage := calculateRSSIAverage rssiHistory
  -- lines 75-79
  let manufacturerID :=
    if 2 ≤ adv.manufacturerData.length then some (decodeCompanyID adv.manufacturerData)
    else d.manufacturerID
  let manufacturerData :=
    if 2 ≤ adv.manufacturerData.length then adv.manufacturerData
    else d.manufacturerData
  -- lines 82-84
  let serviceUUIDs := if adv.serviceUUIDs ≠ [] then adv.serviceUUIDs else d.serviceUUIDs
  -- lines 87-89
  let serviceData := mergeServiceData d.serviceData adv.serviceData
  -- lines 92-94
  let txPowerLevel :=
    match adv.txPowerLevel with
    | some v => some v
    | none => d.txPowerLevel
  -- line 97
  let connectable := adv.connectable
  -- lines 100-102
  let flags :=
    match adv.flags with
    | some v => some v
    | none => d.flags
  -- lines 105-107
  let appearance :=
    match adv.appearance with
    | some v => some v
    | none => d.appearance
  -- lines 110-124
  let adTypes := mergeADTypes d.adTypes adv.adTypes
  -- lines 127-130
  let advs0 := d.advertisements ++ [adv]
  let advertisements := if maxAdvertisements < advs0.length then advs0.tail else advs0
  -- line 133
  let advInterval := calculateAdvIntervalTimes (advertisements.map Advertisement.timestamp)
  { address := d.address
    name := name
    rssiHistory := rssiHistory
    rssiCurrent := adv.rssi
    rssiAverage := rssiAverage
    advertisements := advertisements
    firstSeen := d.firstSeen
    lastSeen := lastSeen
    advInterval := advInterval
    advCount := advCount
    manufacturerID := manufacturerID
    manufacturerData := manufacturerData
    serviceUUIDs := serviceUUIDs
    serviceData := serviceData
    txPowerLevel := txPowerLevel
    connectable := connectable
    flags := flags
    appearance := appearance
    adTypes := adTypes }

/-- `Device.Copy` (device.go lines 211-256) at the value level: every field is
rebuilt (deep-copying in Go), so the result is value-equal to the source; the
aliasing facet of `Copy` is treated separately in the `Heap` namespace. -/
def Copy (d : Device) : Device where
  address := d.address
  name := d.name
  rssiHistory := d.rssiHistory
  rssiCurrent := d.rssiCurrent
  rssiAverage := d.rssiAverage
  advertisements := d.advertisements
  firstSeen := d.firstSeen
  lastSeen := d.lastSeen
  advInterval := d.advInterval
  advCount := d.advCount
  manufacturerID := d.manufacturerID
  manufacturerData := d.manufacturerData
  serviceUUIDs := d.serviceUUIDs
  serviceData := d.serviceData
  txPowerLevel := d.txPowerLevel
  connectable := d.connectable
  flags := d.flags
  appearance := d.appearance
  adTypes := d.adTypes

/-- `ParseADTypes` (src/internal/ble/advertisement.go lines 50-82) as a total
function on the raw byte list: read a length byte, stop on zero length, stop
when the type byte is missing, otherwise record the type byte and jump
`length` bytes past it.  Totality (the function never fails and returns the
partial parse) is inherent in the type `List Nat → List Nat`. -/
def ParseADTypes : List Nat → List Nat
  | [] => []
  | [_] => []
  | l :: t :: rest =>
      if l = 0 then []
      else t :: ParseADTypes ((t :: rest).drop l)
termination_by data => data.length
decreasing_by
  simp only [List.length_drop, List.length_cons]
  omega

/-! ### Spec-side definitions (for the refinement claims C1 and C4)

These follow the wording of the specification, to be compared with the
definitions translated from the source above. -/

/-- Spec-side median, following the claim's words: sort the deltas, take the
middle one, averaging the two middle values when their count is even.  The
sort is Mathlib's `insertionSort`, independent of the scan-and-swap sort the
source uses. -/
def specMedian (l : List Int) : Int :=
  if l = [] then 0
  else
    let sorted := l.insertionSort (· ≤ ·)
    if l.length % 2 = 0 then
      (sorted.getD (l.length / 2 - 1) 0 + sorted.getD (l.length / 2) 0) / 2
    else sorted.getD (l.length / 2) 0

/-- Spec-side interval computation, following the claim's words: fewer than 5
retained log entries gives unknown (0); deltas between each consecutive pair;
every delta outside [10ms, 10s) discarded; fewer than 3 surviving deltas gives
unknown (0); otherwise the median of the surviving deltas. -/
def specAdvInterval (ts : List Int) : Int :=
  if ts.length < 5 then 0
  else
    let surviving := (deltaList ts).filter
      (fun dt => decide (10000000 ≤ dt ∧ dt < 10000000000))
    if surviving.length < 3 then 0
    else specMedian surviving

/-- Spec-side record encoding for C4: a `[length][type][payload]` record whose
length byte covers the type byte and the payload. -/
def encodeRecord (t : Nat) (payload : List Nat) : List Nat :=
  (payload.length + 1) :: t :: payload

/-- A sequence of `[length][type][payload]` records, concatenated. -/
def encodeRecords (rs : List (Nat × List Nat)) : List Nat :=
  (rs.map fun r => encodeRecord r.1 r.2).flatten

/-! ### Scanner-level model (src/internal/ble/scanner.go)

The `Updates` notification channel (`make(chan struct{}, 100)`, scanner.go
line 34) is modelled by the number of signals currently pending; a
non-blocking send (`select`/`default`, lines 178-182 and 104-108) increments
it when there is room and otherwise drops the signal.  The device map is an
association list from address to `Device`. -/

/-- Capacity of the `Updates` channel (scanner.go line 34). -/
def updatesCap : Nat := 100

/-- `deviceTimeout` constant (scanner.go line 25), in nanoseconds. -/
def deviceTimeout : Int := 30000000000

/-- The non-blocking channel send `select { case s.Updates <- struct{}{} ;
default: }` (scanner.go lines 178-182): pending count grows by one when below
capacity, otherwise the signal is dropped.  The producer never waits: this is
a total function of the pending count. -/
def pushUpdate (pending : Nat) : Nat :=
  if pending < updatesCap then pending + 1 else pending

/-- The body of one `cleanupStaleDevices` tick (scanner.go lines 87-100) on
one map entry: delete the device when `now.Sub(lastSeen) > ttl`, otherwise
keep it; the `removed` flag records whether anything was deleted.  The
staleness window is the `ttl` parameter (the source calls this with the
constant `deviceTimeout`). -/
def sweepEntry (now ttl : Int) (acc : List (String × Device) × Bool)
    (p : String × Device) : List (String × Device) × Bool :=
  if now - p.2.lastSeen > ttl then (acc.1, true) else (acc.1 ++ [p], acc.2)

/-- One whole eviction sweep (scanner.go lines 87-100): every entry is checked
once; the surviving map and the `removed` flag are returned. -/
def evictStale (devs : List (String × Device)) (now ttl : Int) :
    List (String × Device) × Bool :=
  devs.foldl (sweepEntry now ttl) ([], false)

/-- The notification step after a sweep (scanner.go lines 103-109): one
non-blocking signal is attempted when anything was removed, none otherwise. -/
def sweepNotify (removed : Bool) (pending : Nat) : Nat :=
  if removed then pushUpdate pending else pending

/-- `GetDevices` (scanner.go lines 186-195): a snapshot is the list of copies
of all live devices. -/
def snapshotAll (devs : List (String × Device)) : List Device :=
  devs.map (fun p => Copy p.2)

/-! ### Concrete sample inputs (used by the test-scenario claim and witnesses) -/

/-- A minimal advertisement event carrying a timestamp, an RSSI and a
manufacturer payload, everything else absent (as the scanner produces for a
bare manufacturer-data beacon). -/
def mkAdv (ts r : Int) (md : List Nat) : Advertisement where
  timestamp := ts
  rssi := r
  rawData := []
  manufacturerData := md
  serviceUUIDs := []
  serviceData := []
  localName := ""
  txPowerLevel := none
  connectable := false
  flags := none
  appearance := none
  adTypes := []

/-- The device of the spec's test scenario: a fresh device for identity
`AA:BB:CC:DD:EE:01` receiving two events with RSSI −60 then −80, each
carrying manufacturer payload bytes `4C 00 01 02`. -/
def scenarioDevice : Device :=
  Update (Update (NewDevice "AA:BB:CC:DD:EE:01" 0) (mkAdv 0 (-60) [0x4C, 0x00, 0x01, 0x02]))
    (mkAdv 1000000000 (-80) [0x4C, 0x00, 0x01, 0x02])

/-- A fully populated sample event. -/
def advA : Advertisement where
  timestamp := 100
  rssi := -55
  rawData := [2, 1, 6]
  manufacturerData := [0x4C, 0x00, 0x10]
  serviceUUIDs := ["180d"]
  serviceData := [("180d", [1, 2])]
  localName := "tag"
  txPowerLevel := some 4
  connectable := true
  flags := some 6
  appearance := some 961
  adTypes := [1, 255, 9]

/-- A nearly empty sample event (absent optional fields, 1-byte manufacturer
payload). -/
def advB : Advertisement where
  timestamp := 200
  rssi := -60
  rawData := []
  manufacturerData := [7]
  serviceUUIDs := []
  serviceData := []
  localName := ""
  txPowerLevel := none
  connectable := false
  flags := none
  appearance := none
  adTypes := []

/-! ### Heap model for snapshot isolation (claim C3)

Go slices, maps and pointers are mutable storage; whether `Device.Copy`
shares any of it with the live device is an aliasing question that the pure
value model above cannot ask.  Here every slice, map and pointee is a cell in
an explicit store, addressed by `Ref := Nat`.  A nil slice and an empty slice
are both a cell holding the empty list (indistinguishable through any
operation the source performs).  `Update` writes in place to the cells held
by the device (`RSSIHistory`, `ServiceData`, `Advertisements`) and allocates
fresh cells for everything it rebuilds; `Copy` only allocates. -/

namespace Heap

/-- A cell address in the store. -/
abbrev Ref := Nat

/-- Embedding of `Advertisement` with every slice/map/pointer field replaced
by the address of its backing cell. -/
structure AdvH where
  timestamp : Int
  rssi : Int
  rawData : Ref
  manufacturerData : Ref
  serviceUUIDs : Ref
  serviceData : Ref
  localName : String
  txPowerLevel : Option Ref
  connectable : Bool
  flags : Option Ref
  appearance : Option Ref
  adTypes : Ref
deriving DecidableEq, Repr

/-- The possible contents of one store cell: a numeric slice (`[]byte`,
`[]uint8`, `[]int16`), a string slice, a `map[string][]byte` whose values are
cells, an `[]Advertisement` (whose elements are struct values carrying cell
addresses, exactly as Go copies `Advertisement` structs), or the pointee of a
`*int8`/`*uint8`/`*uint16`. -/
inductive HVal where
  | ints (xs : List Int)
  | strs (ss : List String)
  | smap (m : List (String × Ref))
  | advs (es : List AdvH)
  | box (v : Int)
deriving DecidableEq, Repr

/-- The store: cell `r` is `cells[r]`. -/
abbrev Store := List HVal

/-- Read a cell (out-of-range reads yield an empty slice; the theorems'
hypotheses keep every ref in range). -/
def read (s : Store) (r : Ref) : HVal := s.getD r (HVal.ints [])

/-- Overwrite a cell in place. -/
def write (s : Store) (r : Ref) (v : HVal) : Store := s.set r v

/-- Allocate a fresh cell, returning its address. -/
def alloc (s : Store) (v : HVal) : Ref × Store := (s.length, s ++ [v])

/-- View a cell as a numeric slice. -/
def readInts (s : Store) (r : Ref) : List Int :=
  match read s r with
  | HVal.ints xs => xs
  | _ => []

/-- View a cell as a string slice. -/
def readStrs (s : Store) (r : Ref) : List String :=
  match read s r with
  | HVal.strs ss => ss
  | _ => []

/-- View a cell as a `map[string][]byte` (values are cell addresses). -/
def readMap (s : Store) (r : Ref) : List (String × Ref) :=
  match read s r with
  | HVal.smap m => m
  | _ => []

/-- View a cell as an advertisement log. -/
def readAdvs (s : Store) (r : Ref) : List AdvH :=
  match read s r with
  | HVal.advs es => es
  | _ => []

/-- View a cell as a pointee. -/
def readBox (s : Store) (r : Ref) : Int :=
  match read s r with
  | HVal.box v => v
  | _ => 0

/-- Embedding of `Device` over the store: slice/map fields hold the address
of their backing cell, pointer fields hold an optional address. -/
structure DeviceH where
  address : String
  name : String
  rssiHistory : Ref
  rssiCurrent : Int
  rssiAverage : ℚ
  advertisements : Ref
  firstSeen : Int
  lastSeen : Int
  advInterval : Int
  advCount : Nat
  manufacturerID : Option Ref
  manufacturerData : Ref
  serviceUUIDs : Ref
  serviceData : Ref
  txPowerLevel : Option Ref
  connectable : Bool
  flags : Option Ref
  appearance : Option Ref
  adTypes : Ref
deriving DecidableEq, Repr

/-- The company-id decode of `Update` on byte values carried as `Int`. -/
def decodeCompanyIDH (md : List Int) : Int :=
  Int.ofNat ((md.getD 0 0).toNat ||| ((md.getD 1 0).toNat <<< 8))

/-- The `for k, v := range adv.ServiceData` merge on map cells: the device
map takes the event's value cell address for each event key (`d.ServiceData[k]
= v` stores the slice header, aliasing the event's bytes). -/
def mergeMapH (dm em : List (String × Ref)) : List (String × Ref) :=
  em.foldl
    (fun acc p =>
      if acc.any (fun q => q.1 = p.1) then
        acc.map (fun q => if q.1 = p.1 then (p.1, p.2) else q)
      else acc ++ [p])
    dm

/-- `Device.Update` (device.go lines 54-134) over the store.  The store is
threaded left to right exactly in source order; the cells written in place are
the device's `RSSIHistory`, `ServiceData` and `Advertisements` cells, and the
fresh allocations are the new `ManufacturerID` pointee (`&companyID`, line 77)
and the rebuilt `ADTypes` slice (line 120). -/
def UpdateH (s0 : Store) (d : DeviceH) (a : AdvH) : Store × DeviceH :=
  -- lines 67-72: RSSI ring buffer, written in place
  let hist0 := readInts s0 d.rssiHistory ++ [a.rssi]
  let hist := if maxRSSIHistory < hist0.length then hist0.tail else hist0
  let s1 := write s0 d.rssiHistory (HVal.ints hist)
  -- lines 75-79: manufacturer data
  let mdata := readInts s1 a.manufacturerData
  let step2 : Store × Option Ref × Ref :=
    if 2 ≤ mdata.length then
      let p := alloc s1 (HVal.box (decodeCompanyIDH mdata))
      (p.2, some p.1, a.manufacturerData)
    else (s1, d.manufacturerID, d.manufacturerData)
  let s2 := step2.1
  -- lines 82-84: service UUID slice header replaced when non-empty
  let suuids := if readStrs s2 a.serviceUUIDs ≠ [] then a.serviceUUIDs else d.serviceUUIDs
  -- lines 87-89: merge into the device's map cell, in place
  let s3 := write s2 d.serviceData
    (HVal.smap (mergeMapH (readMap s2 d.serviceData) (readMap s2 a.serviceData)))
  -- lines 110-124: AD types rebuilt into a fresh cell when the event has any
  let newTypes := readInts s3 a.adTypes
  let step4 : Store × Ref :=
    if newTypes ≠ [] then
      let p := alloc s3 (HVal.ints ((readInts s3 d.adTypes ++ newTypes).dedup))
      (p.2, p.1)
    else (s3, d.adTypes)
  let s4 := step4.1
  -- lines 127-130: advertisement log, written in place
  let log0 := readAdvs s4 d.advertisements ++ [a]
  let log := if maxAdvertisements < log0.length then log0.tail else log0
  let s5 := write s4 d.advertisements (HVal.advs log)
  (s5,
    { address := d.address
      name := if a.localName ≠ "" then a.localName else d.name
      rssiHistory := d.rssiHistory
      rssiCurrent := a.rssi
      rssiAverage := calculateRSSIAverage hist
      advertisements := d.advertisements
      firstSeen := d.firstSeen
      lastSeen := a.timestamp
      advInterval := calculateAdvIntervalTimes (log.map AdvH.timestamp)
      advCount := d.advCount + 1
      manufacturerID := step2.2.1
      manufacturerData := step2.2.2
      serviceUUIDs := suuids
      serviceData := d.serviceData
      txPowerLevel :=
        match a.txPowerLevel with
        | some r => some r
        | none => d.txPowerLevel
      connectable := a.connectable
      flags :=
        match a.flags with
        | some r => some r
        | none => d.flags
      appearance :=
        match a.appearance with
        | some r => some r
        | none => d.appearance
      adTypes := step4.2 })

/-- One pointer-field copy block of `Copy` (device.go lines 230-243):
`if d.X != nil { v := *d.X ; copy.X = &v }` — dereference and re-box into a
fresh cell. -/
def copyBox (s : Store) (o : Option Ref) : Store × Option Ref :=
  match o with
  | some r =>
      let p := alloc s (HVal.box (readBox s r))
      (p.2, some p.1)
  | none => (s, none)

/-- Deep-copy of the service-data map (device.go lines 250-253): a fresh value
cell per key. -/
def copyMapEntries (s : Store) : List (String × Ref) → Store × List (String × Ref)
  | [] => (s, [])
  | p :: rest =>
      let q := alloc s (HVal.ints (readInts s p.2))
      let r := copyMapEntries q.2 rest
      (r.1, (p.1, q.1) :: r.2)

/-- `Device.Copy` (device.go lines 211-256) over the store.  Scalar fields are
copied by value; `ManufacturerData`, `ServiceUUIDs`, `ADTypes`, `RSSIHistory`
copy into fresh cells; `Advertisements` copies the struct values into a fresh
cell (the entries keep their inner cell addresses, Go's shallow struct copy);
`ManufacturerID`, `Flags`, `Appearance` are re-boxed into fresh pointees;
`ServiceData` is deep-copied; `TxPowerLevel` keeps the live device's pointer
(line 226 copies the pointer itself). -/
def CopyH (s0 : Store) (d : DeviceH) : Store × DeviceH :=
  let pMfg := alloc s0 (HVal.ints (readInts s0 d.manufacturerData))
  let s1 := pMfg.2
  let pSv := alloc s1 (HVal.strs (readStrs s1 d.serviceUUIDs))
  let s2 := pSv.2
  let stepID := copyBox s2 d.manufacturerID
  let s3 := stepID.1
  let stepFl := copyBox s3 d.flags
  let s4 := stepFl.1
  let stepAp := copyBox s4 d.appearance
  let s5 := stepAp.1
  let pAD := alloc s5 (HVal.ints (readInts s5 d.adTypes))
  let s6 := pAD.2
  let pHist := alloc s6 (HVal.ints (readInts s6 d.rssiHistory))
  let s7 := pHist.2
  let pLog := alloc s7 (HVal.advs (readAdvs s7 d.advertisements))
  let s8 := pLog.2
  let stepMap := copyMapEntries s8 (readMap s8 d.serviceData)
  let s9 := stepMap.1
  let pMap := alloc s9 (HVal.smap stepMap.2)
  (pMap.2,
    { address := d.address
      name := d.name
      rssiHistory := pHist.1
      rssiCurrent := d.rssiCurrent
      rssiAverage := d.rssiAverage
      advertisements := pLog.1
      firstSeen := d.firstSeen
      lastSeen := d.lastSeen
      advInterval := d.advInterval
      advCount := d.advCount
      manufacturerID := stepID.2
      manufacturerData := pMfg.1
      serviceUUIDs := pSv.1
      serviceData := pMap.1
      txPowerLevel := d.txPowerLevel
      connectable := d.connectable
      flags := stepFl.2
      appearance := stepAp.2
      adTypes := pAD.1 })

/-- A fully dereferenced view of an advertisement entry. -/
structure AdvObs where
  timestamp : Int
  rssi : Int
  rawData : List Int
  manufacturerData : List Int
  serviceUUIDs : List String
  serviceData : List (String × List Int)
  localName : String
  txPowerLevel : Option Int
  connectable : Bool
  flags : Option Int
  appearance : Option Int
  adTypes : List Int
deriving DecidableEq, Repr

/-- A fully dereferenced view of a device: every field of the Go struct with
all slices, maps and pointees resolved to their current contents. -/
structure DeviceObs where
  address : String
  name : String
  rssiHistory : List Int
  rssiCurrent : Int
  rssiAverage : ℚ
  advertisements : List AdvObs
  firstSeen : Int
  lastSeen : Int
  advInterval : Int
  advCount : Nat
  manufacturerID : Option Int
  manufacturerData : List Int
  serviceUUIDs : List String
  serviceData : List (String × List Int)
  txPowerLevel : Option Int
  connectable : Bool
  flags : Option Int
  appearance : Option Int
  adTypes : List Int
deriving DecidableEq, Repr

/-- Dereference an advertisement entry. -/
def observeAdv (s : Store) (a : AdvH) : AdvObs where
  timestamp := a.timestamp
  rssi := a.rssi
  rawData := readInts s a.rawData
  manufacturerData := readInts s a.manufacturerData
  serviceUUIDs := readStrs s a.serviceUUIDs
  serviceData := (readMap s a.serviceData).map (fun p => (p.1, readInts s p.2))
  localName := a.localName
  txPowerLevel := a.txPowerLevel.map (readBox s)
  connectable := a.connectable
  flags := a.flags.map (readBox s)
  appearance := a.appearance.map (readBox s)
  adTypes := readInts s a.adTypes

/-- Dereference a device. -/
def observeDevice (s : Store) (d : DeviceH) : DeviceObs where
  address := d.address
  name := d.name
  rssiHistory := readInts s d.rssiHistory
  rssiCurrent := d.rssiCurrent
  rssiAverage := d.rssiAverage
  advertisements := (readAdvs s d.advertisements).map (observeAdv s)
  firstSeen := d.firstSeen
  lastSeen := d.lastSeen
  advInterval := d.advInterval
  advCount := d.advCount
  manufacturerID := d.manufacturerID.map (readBox s)
  manufacturerData := readInts s d.manufacturerData
  serviceUUIDs := readStrs s d.serviceUUIDs
  serviceData := (readMap s d.serviceData).map (fun p => (p.1, readInts s p.2))
  txPowerLevel := d.txPowerLevel.map (readBox s)
  connectable := d.connectable
  flags := d.flags.map (readBox s)
  appearance := d.appearance.map (readBox s)
  adTypes := readInts s d.adTypes

/-- The cell addresses of an optional pointer field. -/
def optRef : Option Ref → List Ref
  | some r => [r]
  | none => []

/-- The direct cell addresses held by an advertisement entry. -/
def advRefs (a : AdvH) : List Ref :=
  [a.rawData, a.manufacturerData, a.serviceUUIDs, a.serviceData, a.adTypes]
    ++ optRef a.txPowerLevel ++ optRef a.flags ++ optRef a.appearance

/-- Every cell address `observeAdv` dereferences: the direct addresses plus
the value cells of the entry's service-data map. -/
def advObsRefs (s : Store) (a : AdvH) : List Ref :=
  advRefs a ++ (readMap s a.serviceData).map Prod.snd

/-- Every cell address `observeDevice` dereferences. -/
def deviceObsRefs (s : Store) (d : DeviceH) : List Ref :=
  [d.rssiHistory, d.advertisements, d.manufacturerData, d.serviceUUIDs,
    d.serviceData, d.adTypes]
    ++ optRef d.manufacturerID ++ optRef d.txPowerLevel ++ optRef d.flags
    ++ optRef d.appearance
    ++ (readMap s d.serviceData).map Prod.snd
    ++ (readAdvs s d.advertisements).flatMap (advObsRefs s)

/-- The cells `UpdateH` writes in place: the device's RSSI ring buffer, its
service-data map and its advertisement log. -/
def writeSet (d : DeviceH) : List Ref :=
  [d.rssiHistory, d.serviceData, d.advertisements]

/-- Well-formedness of a live device in a store: every cell address its
observation reaches is in range, and the addresses that subsequent updates
write in place (`writeSet`) are held only by the device itself, never by its
tx-power pointee nor by anything reachable from an already-logged
advertisement entry (in the running program those come from distinct
allocations). -/
def WFDevice (s : Store) (d : DeviceH) : Prop :=
  (∀ r ∈ deviceObsRefs s d, r < s.length) ∧
  (∀ r ∈ optRef d.txPowerLevel ++
      (readAdvs s d.advertisements).flatMap (advObsRefs s), r ∉ writeSet d)

instance (s : Store) (d : DeviceH) : Decidable (WFDevice s d) := by
  unfold WFDevice
  infer_instance

/-- A concrete logged advertisement entry (its slice fields point at cells
9-14 of `exStore`). -/
def exEntry : AdvH where
  timestamp := 5
  rssi := -50
  rawData := 9
  manufacturerData := 10
  serviceUUIDs := 11
  serviceData := 12
  localName := "tag"
  txPowerLevel := none
  connectable := true
  flags := none
  appearance := none
  adTypes := 14

/-- A concrete well-formed store for the snapshot-isolation theorems. -/
def exStore : Store :=
  [HVal.ints [-50],             -- 0: device RSSI history
   HVal.advs [exEntry],         -- 1: device advertisement log
   HVal.ints [76, 0],           -- 2: device manufacturer payload
   HVal.strs ["180d"],          -- 3: device service UUIDs
   HVal.smap [("180d", 5)],     -- 4: device service-data map
   HVal.ints [9, 9],            -- 5: its value cell
   HVal.box 4,                  -- 6: device tx-power pointee
   HVal.box 76,                 -- 7: device manufacturer-id pointee
   HVal.box 6,                  -- 8: device flags pointee
   HVal.ints [2, 1, 6],         -- 9: entry raw data
   HVal.ints [76, 0],           -- 10: entry manufacturer payload
   HVal.strs [],                -- 11: entry service UUIDs
   HVal.smap [("180d", 13)],    -- 12: entry service-data map
   HVal.ints [1],               -- 13: its value cell
   HVal.ints [1, 255],          -- 14: entry AD types
   HVal.ints [],                -- 15: new event raw data
   HVal.ints [76, 0, 1],        -- 16: new event manufacturer payload
   HVal.strs ["181c"],          -- 17: new event service UUIDs
   HVal.smap [("181c", 19)],    -- 18: new event service-data map
   HVal.ints [7],               -- 19: its value cell
   HVal.ints [3, 22],           -- 20: new event AD types
   HVal.box 9,                  -- 21: new event tx-power pointee
   HVal.ints [1, 3]]            -- 22: device AD types

/-- A concrete live device over `exStore`. -/
def exDev : DeviceH where
  address := "AA"
  name := "tag"
  rssiHistory := 0
  rssiCurrent := -50
  rssiAverage := -50
  advertisements := 1
  firstSeen := 0
  lastSeen := 5
  advInterval := 0
  advCount := 1
  manufacturerID := some 7
  manufacturerData := 2
  serviceUUIDs := 3
  serviceData := 4
  txPowerLevel := some 6
  connectable := true
  flags := some 8
  appearance := none
  adTypes := 22

/-- A concrete incoming event over `exStore` (cells 15-21). -/
def exAdv : AdvH where
  timestamp := 1000000005
  rssi := -60
  rawData := 15
  manufacturerData := 16
  serviceUUIDs := 17
  serviceData := 18
  localName := ""
  txPowerLevel := some 21
  connectable := false
  flags := none
  appearance := none
  adTypes := 20

end Heap

/-! ## Theorems -/

theorem lor_shiftLeft_eq_add {b0 : Nat} (b1 : Nat) (h0 : b0 < 256) :
    b0 ||| (b1 <<< 8) = b0 + 256 * b1 := by
  have h : b1 <<< 8 = 2 ^ 8 * b1 := by
    rw [Nat.shiftLeft_eq, Nat.mul_comm]
  rw [h, Nat.lor_comm, ← Nat.mul_add_lt_is_or h0]
  omega

/-- C7: A manufacturer payload is interpreted as a little-endian 16-bit
company id followed by the remaining bytes (general conjunct: for any update
whose event carries payload bytes `b0 :: b1 :: rest`, the stored id is
`b0 + 256 * b1` and the stored payload is the full byte list); in particular
two events with RSSI −60 then −80 on a fresh device, each with payload
`4C 00 01 02`, give manufacturer id `0x004C`, RSSI average `−70`, and
advertisement count `2`. -/
theorem update_manufacturer_little_endian (d : Device) (adv : Advertisement)
    (b0 b1 : Nat) (rest : List Nat)
    (hmd : adv.manufacturerData = b0 :: b1 :: rest)
    (h0 : b0 < 256) (h1 : b1 < 256) :
    ((Update d adv).manufacturerID = some (b0 + 256 * b1)
      ∧ (Update d adv).manufacturerData = b0 :: b1 :: rest)
    ∧ scenarioDevice.manufacturerID = some 0x004C
    ∧ scenarioDevice.rssiAverage = -70
    ∧ scenarioDevice.advCount = 2 := by
  have havg : scenarioDevice.rssiAverage = calculateRSSIAverage [-60, -80] := by
    simp [scenarioDevice, Update, NewDevice, mkAdv, maxRSSIHistory]
  refine ⟨⟨?_, ?_⟩, by decide, ?_, by decide⟩
  · have hlen : 2 ≤ adv.manufacturerData.length := by rw [hmd]; simp
    simp only [Update, if_pos hlen, decodeCompanyID, hmd, List.getD]
    simp [lor_shiftLeft_eq_add b1 h0]
  · have hlen : 2 ≤ adv.manufacturerData.length := by rw [hmd]; simp
    simp [Update, if_pos hlen, hmd]
  · rw [havg]
    rw [calculateRSSIAverage, if_neg (by simp)]
    norm_num

/-- Witness for C7 at a concrete input: the second scenario event applied to
the scenario's intermediate device. -/
theorem update_manufacturer_little_endian_witness :
    ((Update (NewDevice "AA:BB:CC:DD:EE:01" 0) (mkAdv 0 (-60) [0x4C, 0x00, 0x01, 0x02])).manufacturerID
        = some (0x4C + 256 * 0x00)
      ∧ (Update (NewDevice "AA:BB:CC:DD:EE:01" 0) (mkAdv 0 (-60) [0x4C, 0x00, 0x01, 0x02])).manufacturerData
        = 0x4C :: 0x00 :: [0x01, 0x02])
    ∧ scenarioDevice.manufacturerID = some 0x004C
    ∧ scenarioDevice.rssiAverage = -70
    ∧ scenarioDevice.advCount = 2 :=
  update_manufacturer_little_endian (NewDevice "AA:BB:CC:DD:EE:01" 0)
    (mkAdv 0 (-60) [0x4C, 0x00, 0x01, 0x02]) 0x4C 0x00 [0x01, 0x02]
    (by decide) (by decide) (by decide)

/-- C8: the change-notification channel is bounded by its capacity 100 and the
producer-side send never blocks (`pushUpdate` is a total function realising
the `select`/`default` non-blocking send): any number of rapid upserts starting
from at most `updatesCap` pending signals leaves at most `updatesCap` pending
signals; from an empty channel, `N` upserts leave exactly `min N 100` pending,
so `N > 100` upserts leave exactly 100. -/
theorem updates_channel_bounded (N start : Nat) (h : start ≤ updatesCap) :
    pushUpdate^[N] start ≤ updatesCap
    ∧ pushUpdate^[N] 0 = min N updatesCap := by
  constructor
  · induction N generalizing start with
    | zero => simpa using h
    | succ n ih =>
        rw [Function.iterate_succ_apply]
        exact ih _ (by unfold pushUpdate; split <;> omega)
  · induction N with
    | zero => simp [updatesCap]
    | succ n ih =>
        rw [Function.iterate_succ_apply', ih]
        unfold pushUpdate updatesCap
        simp only [updatesCap] at *
        split <;> omega

/-- Witness for C8: 250 rapid upserts on an empty channel leave exactly 100
pending signals, and at most the capacity. -/
theorem updates_channel_bounded_witness :
    pushUpdate^[250] 0 ≤ updatesCap ∧ pushUpdate^[250] 0 = min 250 updatesCap :=
  ⟨(updates_channel_bounded 250 0 (by decide)).1,
    (updates_channel_bounded 250 0 (by decide)).2⟩

/-- C9: an update whose event carries a manufacturer payload of fewer than 2
bytes (absent, or 1 byte) leaves the stored manufacturer id and payload
unchanged; with at least 2 bytes the company id is decoded and both fields
are overwritten. -/
theorem update_short_manufacturer_payload_ignored (d : Device) (adv : Advertisement) :
    (adv.manufacturerData.length < 2 →
      (Update d adv).manufacturerID = d.manufacturerID
      ∧ (Update d adv).manufacturerData = d.manufacturerData)
    ∧ (2 ≤ adv.manufacturerData.length →
      (Update d adv).manufacturerID = some (decodeCompanyID adv.manufacturerData)
      ∧ (Update d adv).manufacturerData = adv.manufacturerData) := by
  constructor
  · intro h
    have h2 : ¬ 2 ≤ adv.manufacturerData.length := by omega
    constructor <;> simp [Update, if_neg h2]
  · intro h
    constructor <;> simp [Update, if_pos h]

/-- Witness for C9: a 1-byte payload (event `advB`) leaves both fields of the
device built from `advA` unchanged. -/
theorem update_short_manufacturer_payload_ignored_witness :
    (Update (Update (NewDevice "AA" 0) advA) advB).manufacturerID
      = (Update (NewDevice "AA" 0) advA).manufacturerID
    ∧ (Update (Update (NewDevice "AA" 0) advA) advB).manufacturerData
      = (Update (NewDevice "AA" 0) advA).manufacturerData :=
  (update_short_manufacturer_payload_ignored (Update (NewDevice "AA" 0) advA) advB).1
    (by decide)

/-- C10: every update overwrites the connectable flag with the event's value
(so `connectable = false` clears a stored `true`), while tx-power, flags and
appearance are sticky-optional: kept when the event carries none, replaced
when it carries a value. -/
theorem update_connectable_not_sticky (d : Device) (adv : Advertisement) :
    (Update d adv).connectable = adv.connectable
    ∧ (adv.txPowerLevel = none → (Update d adv).txPowerLevel = d.txPowerLevel)
    ∧ (∀ v, adv.txPowerLevel = some v → (Update d adv).txPowerLevel = some v)
    ∧ (adv.flags = none → (Update d adv).flags = d.flags)
    ∧ (∀ v, adv.flags = some v → (Update d adv).flags = some v)
    ∧ (adv.appearance = none → (Update d adv).appearance = d.appearance)
    ∧ (∀ v, adv.appearance = some v → (Update d adv).appearance = some v) := by
  refine ⟨by simp [Update], ?_, ?_, ?_, ?_, ?_, ?_⟩ <;>
    first
      | (intro h; simp [Update, h])
      | (intro v h; simp [Update, h])

/-- Witness for C10: the device holding `advA`'s `connectable = true` and its
sticky fields receives `advB` (connectable false, all optionals absent): the
flag is cleared and the sticky fields survive. -/
theorem update_connectable_not_sticky_witness :
    (Update (Update (NewDevice "AA" 0) advA) advB).connectable = advB.connectable
    ∧ (Update (Update (NewDevice "AA" 0) advA) advB).txPowerLevel
        = (Update (NewDevice "AA" 0) advA).txPowerLevel
    ∧ (Update (Update (NewDevice "AA" 0) advA) advB).flags
        = (Update (NewDevice "AA" 0) advA).flags
    ∧ (Update (Update (NewDevice "AA" 0) advA) advB).appearance
        = (Update (NewDevice "AA" 0) advA).appearance :=
  ⟨(update_connectable_not_sticky (Update (NewDevice "AA" 0) advA) advB).1,
    (update_connectable_not_sticky (Update (NewDevice "AA" 0) advA) advB).2.1 (by decide),
    (update_connectable_not_sticky (Update (NewDevice "AA" 0) advA) advB).2.2.2.1 (by decide),
    (update_connectable_not_sticky (Update (NewDevice "AA" 0) advA) advB).2.2.2.2.2.1 (by decide)⟩

theorem update_adTypes_mem (d : Device) (adv : Advertisement) (t : Nat)
    (h : t ∈ d.adTypes) : t ∈ (Update d adv).adTypes := by
  have : (Update d adv).adTypes = mergeADTypes d.adTypes adv.adTypes := by
    simp [Update]
  rw [this, mergeADTypes]
  split
  · exact h
  · rw [List.mem_dedup]
    exact List.mem_append_left _ h

theorem update_adTypes_nodup (d : Device) (adv : Advertisement)
    (h : d.adTypes.Nodup) : (Update d adv).adTypes.Nodup := by
  have : (Update d adv).adTypes = mergeADTypes d.adTypes adv.adTypes := by
    simp [Update]
  rw [this, mergeADTypes]
  split
  · exact h
  · exact List.nodup_dedup _

theorem foldl_update_adTypes_nodup (d : Device) (advs : List Advertisement)
    (h : d.adTypes.Nodup) : (advs.foldl Update d).adTypes.Nodup := by
  induction advs generalizing d with
  | nil => exact h
  | cons a advs ih => exact ih _ (update_adTypes_nodup d a h)

/-- C6: the device's merged set of advertisement-field type codes is monotone
(every code present before an update is still present after it) and, for any
device built from a fresh one by a sequence of updates, free of duplicates. -/
theorem adTypes_monotone_and_nodup :
    (∀ (d : Device) (adv : Advertisement) (t : Nat),
      t ∈ d.adTypes → t ∈ (Update d adv).adTypes)
    ∧ (∀ (addr : String) (now : Int) (advs : List Advertisement),
      ((advs.foldl Update (NewDevice addr now)).adTypes).Nodup) :=
  ⟨update_adTypes_mem,
    fun addr now advs =>
      foldl_update_adTypes_nodup (NewDevice addr now) advs List.nodup_nil⟩

/-- Witness for C6: the type code `1` present after `advA` is still present
after a further update with `advB`, and the fold of both events over a fresh
device has duplicate-free type codes. -/
theorem adTypes_monotone_and_nodup_witness :
    (1 ∈ (Update (Update (NewDevice "AA" 0) advA) advB).adTypes)
    ∧ (([advA, advB].foldl Update (NewDevice "AA" 0)).adTypes).Nodup :=
  ⟨adTypes_monotone_and_nodup.1 (Update (NewDevice "AA" 0) advA) advB 1 (by decide),
    adTypes_monotone_and_nodup.2 "AA" 0 [advA, advB]⟩

theorem calculateRSSIAverage_eq_mean (h : List Int) :
    calculateRSSIAverage h = (h.sum : ℚ) / (h.length : ℚ) := by
  rw [calculateRSSIAverage]
  split
  · subst h
    simp
  · rfl

theorem update_rssiHistory (d : Device) (adv : Advertisement) :
    (Update d adv).rssiHistory =
      if maxRSSIHistory < (d.rssiHistory ++ [adv.rssi]).length then
        (d.rssiHistory ++ [adv.rssi]).tail
      else d.rssiHistory ++ [adv.rssi] := by
  simp [Update]

theorem update_rssiAverage (d : Device) (adv : Advertisement) :
    (Update d adv).rssiAverage = calculateRSSIAverage (Update d adv).rssiHistory := by
  simp [Update]

theorem foldl_update_rssiHistory (addr : String) (now : Int) (advs : List Advertisement) :
    (advs.foldl Update (NewDevice addr now)).rssiHistory
      = (advs.map Advertisement.rssi).drop (advs.length - maxRSSIHistory) := by
  induction advs using List.reverseRecOn with
  | nil => simp [NewDevice]
  | append_singleton advs a ih =>
      rw [List.foldl_append, List.foldl_cons, List.foldl_nil, update_rssiHistory, ih]
      have hlenmap : (advs.map Advertisement.rssi).length = advs.length :=
        List.length_map _ _
      by_cases hn : advs.length < maxRSSIHistory
      · rw [if_neg]
        · have h0 : advs.length - maxRSSIHistory = 0 := by omega
          have h1 : (advs.length + 1) - maxRSSIHistory = 0 := by omega
          simp [h0, h1]
        · simp only [List.length_append, List.length_drop, hlenmap, List.length_cons,
            List.length_nil]
          omega
      · rw [if_pos]
        · have h20 : 0 < maxRSSIHistory := by decide
          have hlt : advs.length - maxRSSIHistory < (advs.map Advertisement.rssi).length := by
            rw [hlenmap]; omega
          rw [← List.drop_one, List.drop_append_of_le_length (by
            simp only [List.length_drop, hlenmap]; omega),
            List.drop_drop, List.map_append]
          have harith : advs.length - maxRSSIHistory + 1
              = (advs ++ [a]).length - maxRSSIHistory := by
            simp only [List.length_append, List.length_cons, List.length_nil]
            omega
          rw [harith, List.drop_append_of_le_length (by
            simp only [hlenmap]
            simp only [List.length_append, List.length_cons, List.length_nil]
            omega)]
          simp
        · simp only [List.length_append, List.length_drop, hlenmap, List.length_cons,
            List.length_nil]
          omega

/-- C2: after any sequence of `n` updates, the RSSI history is exactly the
last `min n 20` RSSI samples in arrival order (the suffix of the sample list
after dropping `n − 20`; in particular after 21 updates it is samples #2–#21),
its length is `min n 20`, the current RSSI is the latest sample (0, the fresh
device's value, when there is none), and the stored average is the arithmetic
mean (sum over length) of the retained samples. -/
theorem rssi_window_and_average (addr : String) (now : Int) (advs : List Advertisement) :
    (advs.foldl Update (NewDevice addr now)).rssiHistory
      = (advs.map Advertisement.rssi).drop (advs.length - maxRSSIHistory)
    ∧ (advs.foldl Update (NewDevice addr now)).rssiHistory.length
      = min advs.length maxRSSIHistory
    ∧ (advs.foldl Update (NewDevice addr now)).rssiCurrent
      = ((advs.map Advertisement.rssi).getLast?).getD 0
    ∧ (advs.foldl Update (NewDevice addr now)).rssiAverage
      = (((advs.foldl Update (NewDevice addr now)).rssiHistory.sum : ℚ)
          / ((advs.foldl Update (NewDevice addr now)).rssiHistory.length : ℚ)) := by
  refine ⟨foldl_update_rssiHistory addr now advs, ?_, ?_, ?_⟩
  · rw [foldl_update_rssiHistory addr now advs]
    simp only [List.length_drop, List.length_map]
    omega
  · induction advs using List.reverseRecOn with
    | nil => simp [NewDevice]
    | append_singleton advs a ih =>
        rw [List.foldl_append, List.foldl_cons, List.foldl_nil]
        have : (Update (advs.foldl Update (NewDevice addr now)) a).rssiCurrent = a.rssi := by
          simp [Update]
        rw [this, List.map_append]
        simp
  · cases advs using List.reverseRecOn with
    | nil => simp [NewDevice]
    | append_singleton advs a =>
        rw [List.foldl_append, List.foldl_cons, List.foldl_nil, update_rssiAverage,
          calculateRSSIAverage_eq_mean]

theorem parseADTypes_nil : ParseADTypes [] = [] := by
  simp [ParseADTypes]

theorem parseADTypes_zero (rest : List Nat) : ParseADTypes (0 :: rest) = [] := by
  cases rest <;> simp [ParseADTypes]

theorem parseADTypes_single (l : Nat) : ParseADTypes [l] = [] := by
  simp [ParseADTypes]

theorem parseADTypes_record (t : Nat) (p rest : List Nat) :
    ParseADTypes (encodeRecord t p ++ rest) = t :: ParseADTypes rest := by
  rw [encodeRecord]
  simp only [List.cons_append, List.append_assoc]
  rw [ParseADTypes]
  rw [if_neg (Nat.succ_ne_zero _)]
  congr 1
  rw [List.drop_succ_cons, List.drop_left]

theorem parseADTypes_records (rs : List (Nat × List Nat)) (rest : List Nat) :
    ParseADTypes (encodeRecords rs ++ rest) = rs.map Prod.fst ++ ParseADTypes rest := by
  induction rs with
  | nil => simp [encodeRecords]
  | cons r rs ih =>
      rw [encodeRecords, List.map_cons, List.flatten_cons, List.append_assoc]
      rw [show (rs.map fun r => encodeRecord r.1 r.2).flatten = encodeRecords rs from rfl]
      rw [parseADTypes_record, ih]
      simp

/-- C4: decoding a buffer of `[length][type][payload]` records records the
type code of every record it encounters and never fails (the decoder is a
total function returning the partial parse).  Conjuncts: (1) a well-formed
record prefix contributes exactly its type codes, compositionally; (2) a zero
length byte before the end of the buffer stops the parse and everything after
it is ignored; (3) a record whose length byte is the last byte of the buffer
(its type byte would overrun) stops the parse, contributing nothing; (4) a
record whose declared length overruns the remaining buffer still has its type
byte recorded (it was encountered), after which the parse stops; (5) a buffer
of exactly the well-formed records yields exactly their type codes. -/
theorem parse_ad_types_partial_decode (rs : List (Nat × List Nat)) (rest : List Nat)
    (hbytes : ∀ r ∈ rs, r.1 < 256 ∧ r.2.length + 1 < 256 ∧ ∀ b ∈ r.2, b < 256) :
    (ParseADTypes (encodeRecords rs ++ rest) = rs.map Prod.fst ++ ParseADTypes rest)
    ∧ (ParseADTypes (encodeRecords rs ++ 0 :: rest) = rs.map Prod.fst)
    ∧ (∀ l, l ≠ 0 → ParseADTypes (encodeRecords rs ++ [l]) = rs.map Prod.fst)
    ∧ (∀ l t p, p.length + 1 < l →
        ParseADTypes (encodeRecords rs ++ l :: t :: p) = rs.map Prod.fst ++ [t])
    ∧ ParseADTypes (encodeRecords rs) = rs.map Prod.fst := by
  refine ⟨parseADTypes_records rs rest, ?_, ?_, ?_, ?_⟩
  · rw [parseADTypes_records, parseADTypes_zero, List.append_nil]
  · intro l hl
    rw [parseADTypes_records, parseADTypes_single, List.append_nil]
  · intro l t p hlen
    rw [parseADTypes_records]
    congr 1
    rw [ParseADTypes, if_neg (by omega)]
    rw [List.drop_eq_nil_of_le (by simp; omega), parseADTypes_nil]
  · have h := parseADTypes_records rs []
    rwa [List.append_nil, parseADTypes_nil, List.append_nil] at h

/-- Witness for C4: a buffer holding a Flags record and a Manufacturer-Data
record followed by a zero length byte and junk parses to exactly the two type
codes. -/
theorem parse_ad_types_partial_decode_witness :
    ParseADTypes (encodeRecords [(0x01, [0x06]), (0xFF, [0x4C, 0x00])] ++ 0 :: [0x99])
      = [(0x01, [0x06]), (0xFF, [0x4C, 0x00])].map Prod.fst
    ∧ ParseADTypes (encodeRecords [(0x01, [0x06]), (0xFF, [0x4C, 0x00])] ++ [0x05, 0xAA])
      = [(0x01, [0x06]), (0xFF, [0x4C, 0x00])].map Prod.fst ++ [0xAA] :=
  ⟨(parse_ad_types_partial_decode [(0x01, [0x06]), (0xFF, [0x4C, 0x00])] [0x99]
      (by decide)).2.1,
    (parse_ad_types_partial_decode [(0x01, [0x06]), (0xFF, [0x4C, 0x00])] []
      (by decide)).2.2.2.1 0x05 0xAA [] (by decide)⟩

theorem evictStale_foldl (devs : List (String × Device)) (now ttl : Int)
    (acc : List (String × Device)) (b : Bool) :
    devs.foldl (sweepEntry now ttl) (acc, b)
      = (acc ++ devs.filter (fun p => !decide (now - p.2.lastSeen > ttl)),
          b || devs.any (fun p => decide (now - p.2.lastSeen > ttl))) := by
  induction devs generalizing acc b with
  | nil => simp
  | cons p devs ih =>
      rw [List.foldl_cons, sweepEntry]
      by_cases h : now - p.2.lastSeen > ttl
      · rw [if_pos h, ih]
        simp [h]
      · rw [if_neg h, ih]
        simp [h]

theorem evictStale_eq (devs : List (String × Device)) (now ttl : Int) :
    evictStale devs now ttl
      = (devs.filter (fun p => !decide (now - p.2.lastSeen > ttl)),
          devs.any (fun p => decide (now - p.2.lastSeen > ttl))) := by
  rw [evictStale, evictStale_foldl]
  simp

theorem nodup_keys_unique {devs : List (String × Device)} {a : String} {x y : Device}
    (h : (devs.map Prod.fst).Nodup) (hx : (a, x) ∈ devs) (hy : (a, y) ∈ devs) :
    x = y := by
  induction devs with
  | nil => exact absurd hx (List.not_mem_nil _)
  | cons p devs ih =>
      rw [List.map_cons, List.nodup_cons] at h
      rcases List.mem_cons.mp hx with hx1 | hx1 <;>
        rcases List.mem_cons.mp hy with hy1 | hy1
      · rw [← hx1] at hy1
        exact ((Prod.mk.injEq a y a x).mp hy1).2.symm
      · exfalso
        apply h.1
        cases hx1
        exact List.mem_map.mpr ⟨(a, y), hy1, rfl⟩
      · exfalso
        apply h.1
        cases hy1
        exact List.mem_map.mpr ⟨(a, x), hx1, rfl⟩
      · exact ih h.2 hx1 hy1

/-- C5: after an eviction sweep at time `now` with staleness window `ttl` over
a registry with unique addresses, every device whose last-seen strictly
predates `now − ttl` is absent from the post-sweep snapshot, every device
whose last-seen is within the window is still present (its copy is in the
snapshot), the sweep emits at most one change signal no matter how many
devices it removed, and it emits none when nothing was removed. -/
theorem evict_stale_sweep (devs : List (String × Device)) (now ttl : Int) (pending : Nat)
    (hkeys : (devs.map Prod.fst).Nodup)
    (haddr : ∀ p ∈ devs, p.2.address = p.1) :
    (∀ a d, (a, d) ∈ devs → d.lastSeen < now - ttl →
      a ∉ (snapshotAll (evictStale devs now ttl).1).map Device.address)
    ∧ (∀ a d, (a, d) ∈ devs → ¬ d.lastSeen < now - ttl →
      Copy d ∈ snapshotAll (evictStale devs now ttl).1)
    ∧ sweepNotify (evictStale devs now ttl).2 pending ≤ pending + 1
    ∧ ((evictStale devs now ttl).2 = false →
      sweepNotify (evictStale devs now ttl).2 pending = pending) := by
  refine ⟨?_, ?_, ?_, ?_⟩
  · intro a d hmem hstale hsnap
    rw [evictStale_eq] at hsnap
    simp only [snapshotAll, List.map_map, List.mem_map, Function.comp] at hsnap
    obtain ⟨p, hp, hpa⟩ := hsnap
    have hpdev : p ∈ devs := List.mem_of_mem_filter hp
    have hpad : (Copy p.2).address = p.2.address := rfl
    have hkey : p.1 = a := by rw [← haddr p hpdev, ← hpad, hpa]
    have hpd : p.2 = d := by
      have : p = (a, p.2) := by
        cases p
        simp_all
      rw [this] at hpdev
      exact nodup_keys_unique hkeys hpdev hmem
    have := List.of_mem_filter hp
    rw [hpd] at this
    simp only [Bool.not_eq_eq_eq_not, Bool.not_true, decide_eq_false_iff_not, not_lt] at this
    omega
  · intro a d hmem hfresh
    rw [evictStale_eq]
    simp only [snapshotAll, List.mem_map]
    refine ⟨(a, d), ?_, rfl⟩
    apply List.mem_filter.mpr
    refine ⟨hmem, ?_⟩
    simp only [Bool.not_eq_eq_eq_not, Bool.not_true, decide_eq_false_iff_not, gt_iff_lt, not_lt]
    omega
  · rw [sweepNotify]
    split
    · rw [pushUpdate]
      split <;> omega
    · omega
  · intro h
    simp [sweepNotify, h]

/-- Witness for C5: with `now = 100s`, `ttl = 30s` (the source's
`deviceTimeout`), a device last seen at t=0 is swept out of the snapshot
while one last seen at t=90s survives, and at most one signal is emitted. -/
theorem evict_stale_sweep_witness :
    ("A" ∉ (snapshotAll (evictStale [("A", NewDevice "A" 0), ("B", NewDevice "B" 90000000000)]
        100000000000 deviceTimeout).1).map Device.address)
    ∧ Copy (NewDevice "B" 90000000000)
        ∈ snapshotAll (evictStale [("A", NewDevice "A" 0), ("B", NewDevice "B" 90000000000)]
          100000000000 deviceTimeout).1
    ∧ sweepNotify (evictStale [("A", NewDevice "A" 0), ("B", NewDevice "B" 90000000000)]
        100000000000 deviceTimeout).2 0 ≤ 0 + 1 :=
  ⟨(evict_stale_sweep [("A", NewDevice "A" 0), ("B", NewDevice "B" 90000000000)]
      100000000000 deviceTimeout 0 (by decide) (by decide)).1 "A" (NewDevice "A" 0)
      (by decide) (by decide),
    (evict_stale_sweep [("A", NewDevice "A" 0), ("B", NewDevice "B" 90000000000)]
      100000000000 deviceTimeout 0 (by decide) (by decide)).2.1 "B" (NewDevice "B" 90000000000)
      (by decide) (by decide),
    (evict_stale_sweep [("A", NewDevice "A" 0), ("B", NewDevice "B" 90000000000)]
      100000000000 deviceTimeout 0 (by decide) (by decide)).2.2.1⟩

theorem selectMin_perm (x : Int) (ys : List Int) :
    List.Perm ((selectMin x ys).1 :: (selectMin x ys).2) (x :: ys) := by
  induction ys generalizing x with
  | nil => simp [selectMin]
  | cons y ys ih =>
      simp only [selectMin]
      split
      · exact (List.Perm.swap x (selectMin y ys).1 (selectMin y ys).2).trans ((ih y).cons x)
      · exact (List.Perm.swap y (selectMin x ys).1 (selectMin x ys).2).trans
          (((ih x).cons y).trans (List.Perm.swap x y ys))

theorem selectMin_le (x : Int) (ys : List Int) :
    (selectMin x ys).1 ≤ x ∧ ∀ y ∈ ys, (selectMin x ys).1 ≤ y := by
  induction ys generalizing x with
  | nil => simp [selectMin]
  | cons y ys ih =>
      simp only [selectMin]
      split
      · rename_i h
        refine ⟨le_of_lt (lt_of_le_of_lt (ih y).1 h), ?_⟩
        intro z hz
        rcases List.mem_cons.mp hz with hz | hz
        · rw [hz]; exact (ih y).1
        · exact (ih y).2 z hz
      · rename_i h
        push_neg at h
        refine ⟨(ih x).1, ?_⟩
        intro z hz
        rcases List.mem_cons.mp hz with hz | hz
        · rw [hz]; exact le_trans (ih x).1 h
        · exact (ih x).2 z hz

theorem selSort_perm_aux (n : Nat) :
    ∀ l : List Int, l.length ≤ n → List.Perm (selSort l) l := by
  induction n with
  | zero =>
      intro l h
      have hl : l = [] := List.length_eq_zero.mp (Nat.le_zero.mp h)
      subst hl
      simp [selSort]
  | succ n ih =>
      intro l h
      match l with
      | [] => simp [selSort]
      | x :: xs =>
          have hlen : (selectMin x xs).2.length = xs.length := selectMin_snd_length x xs
          have hrec : List.Perm (selSort (selectMin x xs).2) (selectMin x xs).2 := by
            apply ih
            rw [hlen]
            simp only [List.length_cons] at h
            omega
          simp only [selSort]
          exact (hrec.cons _).trans (selectMin_perm x xs)

theorem selSort_perm (l : List Int) : List.Perm (selSort l) l :=
  selSort_perm_aux l.length l le_rfl

theorem selSort_sorted_aux (n : Nat) :
    ∀ l : List Int, l.length ≤ n → List.Sorted (· ≤ ·) (selSort l) := by
  induction n with
  | zero =>
      intro l h
      have hl : l = [] := List.length_eq_zero.mp (Nat.le_zero.mp h)
      subst hl
      simp [selSort]
  | succ n ih =>
      intro l h
      match l with
      | [] => simp [selSort]
      | x :: xs =>
          have hlen : (selectMin x xs).2.length = xs.length := selectMin_snd_length x xs
          simp only [selSort, List.sorted_cons]
          constructor
          · intro b hb
            have hb2 : b ∈ (selectMin x xs).2 :=
              ((selSort_perm (selectMin x xs).2).mem_iff).mp hb
            have hb3 : b ∈ x :: xs :=
              (selectMin_perm x xs).subset (List.mem_cons_of_mem _ hb2)
            rcases List.mem_cons.mp hb3 with hb4 | hb4
            · rw [hb4]; exact (selectMin_le x xs).1
            · exact (selectMin_le x xs).2 b hb4
          · apply ih
            rw [hlen]
            simp only [List.length_cons] at h
            omega

theorem selSort_sorted (l : List Int) : List.Sorted (· ≤ ·) (selSort l) :=
  selSort_sorted_aux l.length l le_rfl

theorem selSort_eq_insertionSort (l : List Int) :
    selSort l = List.insertionSort (· ≤ ·) l :=
  List.eq_of_perm_of_sorted
    ((selSort_perm l).trans (List.perm_insertionSort _ l).symm)
    (selSort_sorted l) (List.sorted_insertionSort _ l)

theorem medianDuration_eq_specMedian (l : List Int) :
    medianDuration l = specMedian l := by
  rw [medianDuration, specMedian, selSort_eq_insertionSort]
  by_cases h : l = []
  · simp [h]
  · rw [if_neg (by simpa [List.length_eq_zero] using h), if_neg h]

theorem validInterval_eq (dt : Int) :
    validInterval dt = decide (10000000 ≤ dt ∧ dt < 10000000000) := by
  rw [validInterval, Bool.decide_and]

theorem calculateAdvIntervalTimes_eq_spec (ts : List Int) :
    calculateAdvIntervalTimes ts = specAdvInterval ts := by
  rw [calculateAdvIntervalTimes, specAdvInterval]
  have hf : (deltaList ts).filter validInterval
      = (deltaList ts).filter (fun dt => decide (10000000 ≤ dt ∧ dt < 10000000000)) := by
    apply List.filter_congr
    intro dt _
    exact validInterval_eq dt
  rw [hf]
  split
  · rfl
  · simp only [medianDuration_eq_specMedian]

theorem update_advInterval (d : Device) (adv : Advertisement) :
    (Update d adv).advInterval
      = calculateAdvIntervalTimes ((Update d adv).advertisements.map Advertisement.timestamp) := by
  simp [Update]

/-- C1: after each update, the inferred advertisement interval stored in the
device equals, on the retained advertisement log, the spec's computation:
unknown (0) when fewer than 5 log entries are retained; otherwise take the
deltas of consecutive retained entries, discard every delta outside
[10ms, 10s), yield unknown (0) when fewer than 3 deltas survive, and
otherwise the median of the surviving deltas (averaging the two middle values
for an even count).  The first conjunct is the general code/spec equivalence
on any timestamp list; the second applies it to the device after an update;
the third checks the spec's concrete example (5 entries spaced 50ms apart
give a 50ms interval). -/
theorem adv_interval_is_filtered_median :
    (∀ ts : List Int, calculateAdvIntervalTimes ts = specAdvInterval ts)
    ∧ (∀ (d : Device) (adv : Advertisement),
      (Update d adv).advInterval
        = specAdvInterval ((Update d adv).advertisements.map Advertisement.timestamp))
    ∧ calculateAdvIntervalTimes [0, 50000000, 100000000, 150000000, 200000000] = 50000000 := by
  refine ⟨calculateAdvIntervalTimes_eq_spec, ?_, ?_⟩
  · intro d adv
    rw [update_advInterval, calculateAdvIntervalTimes_eq_spec]
  · rw [calculateAdvIntervalTimes]
    norm_num [deltaList, validInterval, medianDuration, selSort, selectMin]

namespace Heap

theorem read_write_ne (s : Store) (r r' : Ref) (v : HVal) (h : r' ≠ r) :
    read (write s r v) r' = read s r' := by
  rw [read, write, read]
  simp only [List.getD_eq_getElem?_getD]
  rw [List.getElem?_set_ne (Ne.symm h)]

theorem read_append_lt (s : Store) (t : Store) (r : Ref) (h : r < s.length) :
    read (s ++ t) r = read s r := by
  rw [read, read]
  simp only [List.getD_eq_getElem?_getD]
  rw [List.getElem?_append_left h]

theorem write_length (s : Store) (r : Ref) (v : HVal) :
    (write s r v).length = s.length := by
  rw [write, List.length_set]

theorem read_ite_append (c : Prop) [Decidable c] (s : Store) (w : HVal) (r : Ref)
    (h : r < s.length) :
    read (if c then s ++ [w] else s) r = read s r := by
  split
  · exact read_append_lt s [w] r h
  · rfl

theorem updateH_store_length (s : Store) (d : DeviceH) (a : AdvH) :
    s.length ≤ (UpdateH s d a).1.length := by
  rw [UpdateH]
  simp only [alloc, apply_ite Prod.fst]
  simp only [write_length, apply_ite List.length, List.length_append, List.length_cons,
    List.length_nil]
  split_ifs <;> omega

theorem updateH_read_preserved (s : Store) (d : DeviceH) (a : AdvH) (r : Ref)
    (hr : r < s.length) (h1 : r ≠ d.rssiHistory) (h2 : r ≠ d.serviceData)
    (h3 : r ≠ d.advertisements) :
    read (UpdateH s d a).1 r = read s r := by
  rw [UpdateH]
  simp only [alloc, apply_ite Prod.fst]
  rw [read_write_ne _ _ _ _ h3, read_ite_append, read_write_ne _ _ _ _ h2,
    read_ite_append, read_write_ne _ _ _ _ h1]
  · rw [write_length]
    exact hr
  · refine Nat.lt_of_lt_of_le hr ?_
    simp only [write_length, apply_ite List.length, List.length_append, List.length_cons,
      List.length_nil]
    split_ifs <;> simp

theorem read_append_self (s : Store) (v : HVal) : read (s ++ [v]) s.length = v := by
  rw [read]
  simp only [List.getD_eq_getElem?_getD]
  rw [List.getElem?_append_right le_rfl]
  simp

theorem read_in_extension {s t : Store} (h : s.IsPrefix t) (r : Ref) (hr : r < s.length) :
    read t r = read s r := by
  obtain ⟨u, rfl⟩ := h
  exact read_append_lt s u r hr

theorem copyBox_extends (s : Store) (o : Option Ref) : s.IsPrefix (copyBox s o).1 := by
  cases o with
  | none => exact List.prefix_rfl
  | some r => exact List.prefix_append s _

theorem copyBox_some (s : Store) (o : Option Ref) (r : Ref)
    (h : (copyBox s o).2 = some r) :
    s.length ≤ r ∧ r < (copyBox s o).1.length := by
  cases o with
  | none => simp [copyBox] at h
  | some r' =>
      simp only [copyBox, alloc, Option.some.injEq] at h
      subst h
      exact ⟨le_rfl, by simp [copyBox, alloc]⟩

theorem copyMapEntries_extends (m : List (String × Ref)) (s : Store) :
    s.IsPrefix (copyMapEntries s m).1 := by
  induction m generalizing s with
  | nil => exact List.prefix_rfl
  | cons p rest ih =>
      simp only [copyMapEntries, alloc]
      exact (List.prefix_append s _).trans (ih _)

theorem copyMapEntries_vals (m : List (String × Ref)) (s : Store) :
    ∀ p ∈ (copyMapEntries s m).2, s.length ≤ p.2 ∧ p.2 < (copyMapEntries s m).1.length := by
  induction m generalizing s with
  | nil => simp [copyMapEntries]
  | cons q rest ih =>
      simp only [copyMapEntries, alloc]
      intro p hp
      rcases List.mem_cons.mp hp with hp1 | hp1
      · subst hp1
        refine ⟨le_rfl, ?_⟩
        have h1 : (s ++ [HVal.ints (readInts s q.2)]).length
            ≤ (copyMapEntries (s ++ [HVal.ints (readInts s q.2)]) rest).1.length :=
          (copyMapEntries_extends rest _).length_le
        simp only [List.length_append, List.length_cons, List.length_nil] at h1
        show s.length < _
        omega
      · have h2 := ih (s ++ [HVal.ints (readInts s q.2)]) p hp1
        simp only [List.length_append, List.length_cons, List.length_nil] at h2
        exact ⟨by omega, h2.2⟩

theorem readInts_congr {s s' : Store} {r : Ref} (h : read s' r = read s r) :
    readInts s' r = readInts s r := by
  rw [readInts, readInts, h]

theorem readStrs_congr {s s' : Store} {r : Ref} (h : read s' r = read s r) :
    readStrs s' r = readStrs s r := by
  rw [readStrs, readStrs, h]

theorem readMap_congr {s s' : Store} {r : Ref} (h : read s' r = read s r) :
    readMap s' r = readMap s r := by
  rw [readMap, readMap, h]

theorem readAdvs_congr {s s' : Store} {r : Ref} (h : read s' r = read s r) :
    readAdvs s' r = readAdvs s r := by
  rw [readAdvs, readAdvs, h]

theorem readBox_congr {s s' : Store} {r : Ref} (h : read s' r = read s r) :
    readBox s' r = readBox s r := by
  rw [readBox, readBox, h]

theorem observeAdv_congr (s s' : Store) (a : AdvH)
    (h : ∀ r ∈ advObsRefs s a, read s' r = read s r) :
    observeAdv s' a = observeAdv s a := by
  have hdir : ∀ r ∈ advRefs a, read s' r = read s r := by
    intro r hr
    exact h r (List.mem_append_left _ hr)
  have hmap : readMap s' a.serviceData = readMap s a.serviceData :=
    readMap_congr (hdir a.serviceData (by simp [advRefs]))
  have hvals : ∀ p ∈ readMap s a.serviceData, read s' p.2 = read s p.2 := by
    intro p hp
    refine h p.2 (List.mem_append_right _ ?_)
    exact List.mem_map.mpr ⟨p, hp, rfl⟩
  rw [observeAdv, observeAdv, AdvObs.mk.injEq]
  refine ⟨rfl, rfl, ?_, ?_, ?_, ?_, rfl, ?_, rfl, ?_, ?_, ?_⟩
  · exact readInts_congr (hdir a.rawData (by simp [advRefs]))
  · exact readInts_congr (hdir a.manufacturerData (by simp [advRefs]))
  · exact readStrs_congr (hdir a.serviceUUIDs (by simp [advRefs]))
  · rw [hmap]
    refine List.map_congr_left ?_
    intro p hp
    rw [readInts_congr (hvals p hp)]
  · cases htx : a.txPowerLevel with
    | none => rfl
    | some r =>
        simp only [Option.map_some']
        rw [readBox_congr (hdir r (by simp [advRefs, optRef, htx]))]
  · cases hfl : a.flags with
    | none => rfl
    | some r =>
        simp only [Option.map_some']
        rw [readBox_congr (hdir r (by simp [advRefs, optRef, hfl]))]
  · cases hap : a.appearance with
    | none => rfl
    | some r =>
        simp only [Option.map_some']
        rw [readBox_congr (hdir r (by simp [advRefs, optRef, hap]))]
  · exact readInts_congr (hdir a.adTypes (by simp [advRefs]))

theorem observeDevice_congr (s s' : Store) (d : DeviceH)
    (h : ∀ r ∈ deviceObsRefs s d, read s' r = read s r) :
    observeDevice s' d = observeDevice s d := by
  have hdir : ∀ r ∈ ([d.rssiHistory, d.advertisements, d.manufacturerData,
      d.serviceUUIDs, d.serviceData, d.adTypes] : List Ref), read s' r = read s r := by
    intro r hr
    refine h r ?_
    rw [deviceObsRefs]
    simp only [List.append_assoc, List.mem_append]
    exact Or.inl hr
  have hadv : readAdvs s' d.advertisements = readAdvs s d.advertisements :=
    readAdvs_congr (hdir d.advertisements (by simp))
  have hmap : readMap s' d.serviceData = readMap s d.serviceData :=
    readMap_congr (hdir d.serviceData (by simp))
  have hopt : ∀ (o : Option Ref), o = d.manufacturerID ∨ o = d.txPowerLevel
      ∨ o = d.flags ∨ o = d.appearance →
      o.map (readBox s') = o.map (readBox s) := by
    intro o ho
    cases hoe : o with
    | none => rfl
    | some r =>
        simp only [Option.map_some']
        rw [readBox_congr (h r ?_)]
        rw [deviceObsRefs]
        simp only [List.append_assoc, List.mem_append]
        rcases ho with ho | ho | ho | ho <;>
          rw [hoe] at ho <;>
          simp [optRef, ← ho]
  rw [observeDevice, observeDevice, DeviceObs.mk.injEq]
  refine ⟨rfl, rfl, ?_, rfl, rfl, ?_, rfl, rfl, rfl, rfl, ?_, ?_, ?_, ?_, ?_, rfl, ?_, ?_, ?_⟩
  · exact readInts_congr (hdir d.rssiHistory (by simp))
  · rw [hadv]
    refine List.map_congr_left ?_
    intro e he
    refine observeAdv_congr s s' e ?_
    intro r hr
    refine h r ?_
    rw [deviceObsRefs]
    simp only [List.append_assoc, List.mem_append]
    refine Or.inr (Or.inr (Or.inr (Or.inr (Or.inr (Or.inr ?_)))))
    exact List.mem_flatMap.mpr ⟨e, he, hr⟩
  · exact hopt d.manufacturerID (Or.inl rfl)
  · exact readInts_congr (hdir d.manufacturerData (by simp))
  · exact readStrs_congr (hdir d.serviceUUIDs (by simp))
  · rw [hmap]
    refine List.map_congr_left ?_
    intro p hp
    have : read s' p.2 = read s p.2 := by
      refine h p.2 ?_
      rw [deviceObsRefs]
      simp only [List.append_assoc, List.mem_append]
      refine Or.inr (Or.inr (Or.inr (Or.inr (Or.inr (Or.inl ?_)))))
      exact List.mem_map.mpr ⟨p, hp, rfl⟩
    rw [readInts_congr this]
  · exact hopt d.txPowerLevel (Or.inr (Or.inl rfl))
  · exact hopt d.flags (Or.inr (Or.inr (Or.inl rfl)))
  · exact hopt d.appearance (Or.inr (Or.inr (Or.inr rfl)))
  · exact readInts_congr (hdir d.adTypes (by simp))

theorem mem_optRef {o : Option Ref} {r : Ref} : r ∈ optRef o ↔ o = some r := by
  cases o <;> simp [optRef, eq_comm]

theorem copyH_obs (s : Store) (d : DeviceH)
    (hv : ∀ r ∈ deviceObsRefs s d, r < s.length) :
    ∀ r ∈ deviceObsRefs (CopyH s d).1 (CopyH s d).2,
      r < (CopyH s d).1.length ∧
        (s.length ≤ r ∨ r ∈ optRef d.txPowerLevel
          ++ (readAdvs s d.advertisements).flatMap (advObsRefs s)) := by
  simp only [CopyH, alloc]
  set s1 := s ++ [HVal.ints (readInts s d.manufacturerData)] with hs1
  set s2 := s1 ++ [HVal.strs (readStrs s1 d.serviceUUIDs)] with hs2
  set s3 := (copyBox s2 d.manufacturerID).1 with hs3
  set s4 := (copyBox s3 d.flags).1 with hs4
  set s5 := (copyBox s4 d.appearance).1 with hs5
  set s6 := s5 ++ [HVal.ints (readInts s5 d.adTypes)] with hs6
  set s7 := s6 ++ [HVal.ints (readInts s6 d.rssiHistory)] with hs7
  set s8 := s7 ++ [HVal.advs (readAdvs s7 d.advertisements)] with hs8
  set s9 := (copyMapEntries s8 (readMap s8 d.serviceData)).1 with hs9
  set entries := (copyMapEntries s8 (readMap s8 d.serviceData)).2 with hentries
  set sF := s9 ++ [HVal.smap entries] with hsF
  clear_value s1 s2 s3 s4 s5 s6 s7 s8 s9 entries sF
  -- stepwise prefixes
  have q1 : s.IsPrefix s1 := by rw [hs1]; exact List.prefix_append s _
  have q2 : s1.IsPrefix s2 := by rw [hs2]; exact List.prefix_append s1 _
  have q3 : s2.IsPrefix s3 := by rw [hs3]; exact copyBox_extends s2 d.manufacturerID
  have q4 : s3.IsPrefix s4 := by rw [hs4]; exact copyBox_extends s3 d.flags
  have q5 : s4.IsPrefix s5 := by rw [hs5]; exact copyBox_extends s4 d.appearance
  have q6 : s5.IsPrefix s6 := by rw [hs6]; exact List.prefix_append s5 _
  have q7 : s6.IsPrefix s7 := by rw [hs7]; exact List.prefix_append s6 _
  have q8 : s7.IsPrefix s8 := by rw [hs8]; exact List.prefix_append s7 _
  have q9 : s8.IsPrefix s9 := by rw [hs9]; exact copyMapEntries_extends _ s8
  have q10 : s9.IsPrefix sF := by rw [hsF]; exact List.prefix_append s9 _
  -- length chain
  have l1 : s.length < s1.length := by rw [hs1]; simp
  have l2 : s1.length < s2.length := by rw [hs2]; simp
  have l3 : s2.length ≤ s3.length := q3.length_le
  have l4 : s3.length ≤ s4.length := q4.length_le
  have l5 : s4.length ≤ s5.length := q5.length_le
  have l6 : s5.length < s6.length := by rw [hs6]; simp
  have l7 : s6.length < s7.length := by rw [hs7]; simp
  have l8 : s7.length < s8.length := by rw [hs8]; simp
  have l9 : s8.length ≤ s9.length := q9.length_le
  have lF : s9.length < sF.length := by rw [hsF]; simp
  -- prefix from s to the stores read below
  have p5 : s.IsPrefix s5 := (((q1.trans q2).trans q3).trans q4).trans q5
  have p7 : s.IsPrefix s7 := (p5.trans q6).trans q7
  have pF : s.IsPrefix sF := ((p7.trans q8).trans q9).trans q10
  have p9F : s9.IsPrefix sF := q10
  -- validity of the live refs used below
  have hvadv : d.advertisements < s.length := by
    refine hv d.advertisements ?_
    rw [deviceObsRefs]
    simp
  have hvsvc : d.serviceData < s.length := by
    refine hv d.serviceData ?_
    rw [deviceObsRefs]
    simp
  -- contents of the fresh log cell and the fresh map cell
  have hadvF : readAdvs sF s7.length = readAdvs s d.advertisements := by
    have h1 : read sF s7.length = read s8 s7.length :=
      read_in_extension (q9.trans q10) s7.length l8
    have h2 : read s8 s7.length = HVal.advs (readAdvs s7 d.advertisements) := by
      rw [hs8]
      exact read_append_self s7 _
    rw [readAdvs, h1, h2]
    show readAdvs s7 d.advertisements = _
    exact readAdvs_congr (read_in_extension p7 d.advertisements hvadv)
  have hmapF : readMap sF s9.length = entries := by
    rw [readMap, hsF, read_append_self]
  -- the old entries observe the same refs in sF as in s
  have hobsF : ∀ e ∈ readAdvs s d.advertisements, advObsRefs sF e = advObsRefs s e := by
    intro e he
    have hesvc : e.serviceData < s.length := by
      refine hv e.serviceData ?_
      rw [deviceObsRefs]
      simp only [List.append_assoc, List.mem_append]
      refine Or.inr (Or.inr (Or.inr (Or.inr (Or.inr (Or.inr ?_)))))
      refine List.mem_flatMap.mpr ⟨e, he, ?_⟩
      rw [advObsRefs]
      simp [advRefs]
    rw [advObsRefs, advObsRefs, readMap_congr (read_in_extension pF e.serviceData hesvc)]
  -- the protected-ref target
  intro r hr
  rw [deviceObsRefs] at hr
  simp only [List.append_assoc, List.mem_append, List.mem_cons, List.not_mem_nil,
    or_false] at hr
  have hfresh : ∀ x : Ref, s.length ≤ x → x < sF.length →
      x < sF.length ∧ (s.length ≤ x ∨ x ∈ optRef d.txPowerLevel
        ++ (readAdvs s d.advertisements).flatMap (advObsRefs s)) :=
    fun x h1 h2 => ⟨h2, Or.inl h1⟩
  have cSF : s.length ≤ sF.length := by omega
  have c3F : s3.length ≤ sF.length := by omega
  have c4F : s4.length ≤ sF.length := by omega
  have c5F : s5.length ≤ sF.length := by omega
  have c9F : s9.length ≤ sF.length := by omega
  have cs2 : s.length ≤ s2.length := by omega
  have cs3 : s.length ≤ s3.length := by omega
  have cs4 : s.length ≤ s4.length := by omega
  have cs8 : s.length ≤ s8.length := by omega
  have f6a : s.length ≤ s6.length := by omega
  have f6b : s6.length < sF.length := by omega
  have f7a : s.length ≤ s7.length := by omega
  have f7b : s7.length < sF.length := by omega
  have fsb : s.length < sF.length := by omega
  have f1a : s.length ≤ s1.length := by omega
  have f1b : s1.length < sF.length := by omega
  have f9a : s.length ≤ s9.length := by omega
  have f9b : s9.length < sF.length := by omega
  have f5a : s.length ≤ s5.length := by omega
  have f5b : s5.length < sF.length := by omega
  rcases hr with (hr | hr | hr | hr | hr | hr) | hr | hr | hr | hr | hr | hr
  · subst hr
    exact hfresh s6.length f6a f6b
  · subst hr
    exact hfresh s7.length f7a f7b
  · subst hr
    exact hfresh s.length le_rfl fsb
  · subst hr
    exact hfresh s1.length f1a f1b
  · subst hr
    exact hfresh s9.length f9a f9b
  · subst hr
    exact hfresh s5.length f5a f5b
  · -- fresh manufacturer-id box
    have hb := copyBox_some s2 d.manufacturerID r (mem_optRef.mp hr)
    rw [← hs3] at hb
    exact hfresh r (le_trans cs2 hb.1) (lt_of_lt_of_le hb.2 c3F)
  · -- shared tx-power pointee: protected
    have hrs : r < s.length := by
      refine hv r ?_
      rw [deviceObsRefs]
      simp only [List.append_assoc, List.mem_append]
      exact Or.inr (Or.inr (Or.inl hr))
    exact ⟨lt_of_lt_of_le hrs cSF, Or.inr (List.mem_append_left _ hr)⟩
  · -- fresh flags box
    have hb := copyBox_some s3 d.flags r (mem_optRef.mp hr)
    rw [← hs4] at hb
    exact hfresh r (le_trans cs3 hb.1) (lt_of_lt_of_le hb.2 c4F)
  · -- fresh appearance box
    have hb := copyBox_some s4 d.appearance r (mem_optRef.mp hr)
    rw [← hs5] at hb
    exact hfresh r (le_trans cs4 hb.1) (lt_of_lt_of_le hb.2 c5F)
  · -- fresh service-data value cells
    rw [hmapF] at hr
    obtain ⟨p, hp, hpr⟩ := List.mem_map.mp hr
    rw [hentries] at hp
    have hb := copyMapEntries_vals (readMap s8 d.serviceData) s8 p hp
    rw [← hs9] at hb
    subst hpr
    exact hfresh p.2 (le_trans cs8 hb.1) (lt_of_lt_of_le hb.2 c9F)
  · -- refs reachable from the shallow-copied log entries: protected
    rw [hadvF] at hr
    obtain ⟨e, he, hre⟩ := List.mem_flatMap.mp hr
    rw [hobsF e he] at hre
    have hrs : r < s.length := by
      refine hv r ?_
      rw [deviceObsRefs]
      simp only [List.append_assoc, List.mem_append]
      refine Or.inr (Or.inr (Or.inr (Or.inr (Or.inr (Or.inr ?_)))))
      exact List.mem_flatMap.mpr ⟨e, he, hre⟩
    refine ⟨lt_of_lt_of_le hrs cSF, Or.inr (List.mem_append_right _ ?_)⟩
    exact List.mem_flatMap.mpr ⟨e, he, hre⟩

theorem copy_then_update_reads_preserved (s : Store) (d : DeviceH) (a : AdvH)
    (hwf : WFDevice s d) :
    ∀ r ∈ deviceObsRefs (CopyH s d).1 (CopyH s d).2,
      read (UpdateH (CopyH s d).1 d a).1 r = read (CopyH s d).1 r := by
  obtain ⟨hv, hprot⟩ := hwf
  intro r hr
  obtain ⟨hlt, hdisj⟩ := copyH_obs s d hv r hr
  have hw1 : d.rssiHistory < s.length := by
    refine hv d.rssiHistory ?_
    rw [deviceObsRefs]
    simp
  have hw2 : d.serviceData < s.length := by
    refine hv d.serviceData ?_
    rw [deviceObsRefs]
    simp
  have hw3 : d.advertisements < s.length := by
    refine hv d.advertisements ?_
    rw [deviceObsRefs]
    simp
  rcases hdisj with hfr | hpr
  · have h1 : r ≠ d.rssiHistory := (Nat.ne_of_lt (lt_of_lt_of_le hw1 hfr)).symm
    have h2 : r ≠ d.serviceData := (Nat.ne_of_lt (lt_of_lt_of_le hw2 hfr)).symm
    have h3 : r ≠ d.advertisements := (Nat.ne_of_lt (lt_of_lt_of_le hw3 hfr)).symm
    exact updateH_read_preserved _ d a r hlt h1 h2 h3
  · have hnw := hprot r hpr
    rw [writeSet] at hnw
    simp only [List.mem_cons, List.not_mem_nil, or_false, not_or] at hnw
    exact updateH_read_preserved _ d a r hlt hnw.1 hnw.2.1 hnw.2.2

/-- C3 (amended): a snapshot copy shares with the live device only storage
that updates never write through (the tx-power pointee and the payload cells
of already-logged advertisement entries); consequently, for a well-formed
live device, every field of a previously returned copy — its RSSI history,
advertisement log (observed down to each entry's payload bytes and
service-data bytes), manufacturer payload, service-UUID list, service-data
map, and all optional pointer fields — observes the same values after any
subsequent update of the live device as before it. -/
theorem copy_isolated_from_update (s : Store) (d : DeviceH) (a : AdvH)
    (hwf : WFDevice s d) :
    observeDevice (UpdateH (CopyH s d).1 d a).1 (CopyH s d).2
      = observeDevice (CopyH s d).1 (CopyH s d).2 :=
  observeDevice_congr (CopyH s d).1 (UpdateH (CopyH s d).1 d a).1 (CopyH s d).2
    (copy_then_update_reads_preserved s d a hwf)

/-- Counterexample to C3 as stated: the copy *does* share mutable storage
with the live device.  `Copy` copies the `TxPowerLevel` pointer itself
(device.go line 226), so when the live device's tx-power pointer is set,
the returned copy holds the same cell: cell 6 of the concrete store is
reachable (and dereferenced by observation) from both the copy and the live
device. -/
theorem copy_shares_mutable_cell :
    (CopyH exStore exDev).2.txPowerLevel = exDev.txPowerLevel
    ∧ exDev.txPowerLevel = some 6
    ∧ 6 ∈ deviceObsRefs (CopyH exStore exDev).1 (CopyH exStore exDev).2
    ∧ 6 ∈ deviceObsRefs (CopyH exStore exDev).1 exDev := by
  refine ⟨rfl, rfl, ?_, ?_⟩ <;> decide

/-- Witness for the amended C3 at a concrete well-formed store: the
hypothesis is discharged by evaluation and the snapshot's observation is
unchanged by the update. -/
theorem copy_isolated_from_update_witness :
    WFDevice exStore exDev
    ∧ observeDevice (UpdateH (CopyH exStore exDev).1 exDev exAdv).1 (CopyH exStore exDev).2
      = observeDevice (CopyH exStore exDev).1 (CopyH exStore exDev).2 :=
  ⟨by decide, copy_isolated_from_update exStore exDev exAdv (by decide)⟩

end Heap

end Blescan
